import Mathlib

/-!
Verification of the in-memory repository and use-case layers of
`go-book-clean-architecture-api`.

The Go store `map[string]*domain.Book` is embedded as an association list
`List (String × Book)`; `mapLookup`, `mapInsert` and `mapErase` give the
Go map's lookup, assignment and `delete` on that representation.  Each
repository / use-case method from the source becomes a pure Lean function,
returning `Except String α` with the exact error strings of the source;
mutating methods also return the updated store.  The identifier produced by
`uuid.New().String()` in the use-case layer is passed in as an explicit
argument `genID`, with freshness (`mapLookup s genID = none`) as the model
of the generator's non-collision guarantee.
-/

/-- The `domain.Book` entity: identifier, title, author. -/
structure Book where
  ID : String
  Title : String
  Author : String
deriving DecidableEq, Repr

/-- The `domain.User` entity: identifier, name, email. -/
structure User where
  ID : String
  Name : String
  Email : String
deriving DecidableEq, Repr

/-- Lookup by key, as `v, exists := m[k]` on a Go map. -/
def mapLookup {α : Type} (s : List (String × α)) (id : String) : Option α :=
  match s with
  | [] => none
  | (k, v) :: rest => if k = id then some v else mapLookup rest id

/-- Assignment `m[k] = v` on a Go map: replace the binding if present,
otherwise add a new one. -/
def mapInsert {α : Type} (s : List (String × α)) (id : String) (v : α) :
    List (String × α) :=
  match s with
  | [] => [(id, v)]
  | (k, w) :: rest =>
    if k = id then (id, v) :: rest else (k, w) :: mapInsert rest id v

/-- Removal `delete(m, k)` on a Go map. -/
def mapErase {α : Type} (s : List (String × α)) (id : String) :
    List (String × α) :=
  match s with
  | [] => []
  | (k, w) :: rest => if k = id then rest else (k, w) :: mapErase rest id

/-- The state of `InMemoryBookRepository`: the `books` map. -/
abbrev BookStore : Type := List (String × Book)

/-- The state of `InMemoryUserRepository`: the `users` map. -/
abbrev UserStore : Type := List (String × User)

/-- Error string of `InMemoryBookRepository.Create` on a duplicate ID
(spec category `AlreadyExists`). -/
def bookAlreadyExistsMsg : String := "el libro con este ID ya existe"

/-- Error string of the book repository on a missing ID
(spec category `NotFound`). -/
def bookNotFoundMsg : String := "libro no encontrado"

/-- Error string of `InMemoryUserRepository.Create` on a duplicate ID
(spec category `AlreadyExists`). -/
def userAlreadyExistsMsg : String := "el usuario con este ID ya existe"

/-- Error string of the user repository on a missing ID
(spec category `NotFound`). -/
def userNotFoundMsg : String := "usuario no encontrado"

/-- `InMemoryBookRepository.Create`: fail if the ID is already bound,
otherwise store the book under its ID and return it. -/
def InMemoryBookRepository.Create (r : BookStore) (book : Book) :
    Except String Book × BookStore :=
  match mapLookup r book.ID with
  | some _ => (.error bookAlreadyExistsMsg, r)
  | none => (.ok book, mapInsert r book.ID book)

/-- `InMemoryBookRepository.GetByID`: return the book bound to `id`, or
fail with the not-found error. -/
def InMemoryBookRepository.GetByID (r : BookStore) (id : String) :
    Except String Book :=
  match mapLookup r id with
  | some book => .ok book
  | none => .error bookNotFoundMsg

/-- `InMemoryBookRepository.GetAll`: materialize a fresh slice of every
stored book; never an error. -/
def InMemoryBookRepository.GetAll (r : BookStore) :
    Except String (List Book) :=
  .ok (r.map (fun p => p.2))

/-- `InMemoryBookRepository.Update`: fail if the ID is unbound, otherwise
rebind it to the given book. -/
def InMemoryBookRepository.Update (r : BookStore) (book : Book) :
    Except String Book × BookStore :=
  match mapLookup r book.ID with
  | none => (.error bookNotFoundMsg, r)
  | some _ => (.ok book, mapInsert r book.ID book)

/-- `InMemoryBookRepository.Delete`: fail if the ID is unbound, otherwise
remove the binding. -/
def InMemoryBookRepository.Delete (r : BookStore) (id : String) :
    Except String Unit × BookStore :=
  match mapLookup r id with
  | none => (.error bookNotFoundMsg, r)
  | some _ => (.ok (), mapErase r id)

/-- `InMemoryUserRepository.Create`. -/
def InMemoryUserRepository.Create (r : UserStore) (user : User) :
    Except String User × UserStore :=
  match mapLookup r user.ID with
  | some _ => (.error userAlreadyExistsMsg, r)
  | none => (.ok user, mapInsert r user.ID user)

/-- `InMemoryUserRepository.GetByID`. -/
def InMemoryUserRepository.GetByID (r : UserStore) (id : String) :
    Except String User :=
  match mapLookup r id with
  | some user => .ok user
  | none => .error userNotFoundMsg

/-- `InMemoryUserRepository.GetAll`. -/
def InMemoryUserRepository.GetAll (r : UserStore) :
    Except String (List User) :=
  .ok (r.map (fun p => p.2))

/-- `InMemoryUserRepository.Update`. -/
def InMemoryUserRepository.Update (r : UserStore) (user : User) :
    Except String User × UserStore :=
  match mapLookup r user.ID with
  | none => (.error userNotFoundMsg, r)
  | some _ => (.ok user, mapInsert r user.ID user)

/-- `InMemoryUserRepository.Delete`. -/
def InMemoryUserRepository.Delete (r : UserStore) (id : String) :
    Except String Unit × UserStore :=
  match mapLookup r id with
  | none => (.error userNotFoundMsg, r)
  | some _ => (.ok (), mapErase r id)

/-- Validation error string for an empty book title. -/
def titleRequiredMsg : String := "el título del libro es obligatorio"

/-- Validation error string for an empty book author. -/
def authorRequiredMsg : String := "el autor del libro es obligatorio"

/-- Validation error string for an empty book ID. -/
def bookIDRequiredMsg : String := "ID del libro es obligatorio"

/-- Validation error string for an empty user name. -/
def nameRequiredMsg : String := "el nombre del usuario es obligatorio"

/-- Validation error string for an empty user email. -/
def emailRequiredMsg : String := "el email del usuario es obligatorio"

/-- Validation error string for an empty user ID. -/
def userIDRequiredMsg : String := "ID del usuario es obligatorio"

/-- `BookUseCase.CreateBook`: validate title then author, build the entity
with the freshly generated identifier `genID` (the argument models
`uuid.New().String()`), delegate to the repository. -/
def BookUseCase.CreateBook (r : BookStore) (genID title author : String) :
    Except String Book × BookStore :=
  if title = "" then (.error titleRequiredMsg, r)
  else if author = "" then (.error authorRequiredMsg, r)
  else InMemoryBookRepository.Create r { ID := genID, Title := title, Author := author }

/-- `BookUseCase.GetBookByID`: validate the ID, delegate to the repository. -/
def BookUseCase.GetBookByID (r : BookStore) (id : String) :
    Except String Book :=
  if id = "" then .error bookIDRequiredMsg
  else InMemoryBookRepository.GetByID r id

/-- `BookUseCase.GetAllBooks`: delegate to the repository. -/
def BookUseCase.GetAllBooks (r : BookStore) : Except String (List Book) :=
  InMemoryBookRepository.GetAll r

/-- `BookUseCase.UpdateBook`: validate ID, title, author in that order,
then delegate a full replacement entity to the repository. -/
def BookUseCase.UpdateBook (r : BookStore) (id title author : String) :
    Except String Book × BookStore :=
  if id = "" then (.error bookIDRequiredMsg, r)
  else if title = "" then (.error titleRequiredMsg, r)
  else if author = "" then (.error authorRequiredMsg, r)
  else InMemoryBookRepository.Update r { ID := id, Title := title, Author := author }

/-- `BookUseCase.DeleteBook`: validate the ID, delegate to the repository. -/
def BookUseCase.DeleteBook (r : BookStore) (id : String) :
    Except String Unit × BookStore :=
  if id = "" then (.error bookIDRequiredMsg, r)
  else InMemoryBookRepository.Delete r id

/-- `UserUseCase.CreateUser`: validate name then email, build the entity
with the freshly generated identifier `genID`, delegate to the repository. -/
def UserUseCase.CreateUser (r : UserStore) (genID name email : String) :
    Except String User × UserStore :=
  if name = "" then (.error nameRequiredMsg, r)
  else if email = "" then (.error emailRequiredMsg, r)
  else InMemoryUserRepository.Create r { ID := genID, Name := name, Email := email }

/-- `UserUseCase.GetUserByID`. -/
def UserUseCase.GetUserByID (r : UserStore) (id : String) :
    Except String User :=
  if id = "" then .error userIDRequiredMsg
  else InMemoryUserRepository.GetByID r id

/-- `UserUseCase.GetAllUsers`. -/
def UserUseCase.GetAllUsers (r : UserStore) : Except String (List User) :=
  InMemoryUserRepository.GetAll r

/-- `UserUseCase.UpdateUser`: validate ID, name, email in that order, then
delegate a full replacement entity to the repository. -/
def UserUseCase.UpdateUser (r : UserStore) (id name email : String) :
    Except String User × UserStore :=
  if id = "" then (.error userIDRequiredMsg, r)
  else if name = "" then (.error nameRequiredMsg, r)
  else if email = "" then (.error emailRequiredMsg, r)
  else InMemoryUserRepository.Update r { ID := id, Name := name, Email := email }

/-- `UserUseCase.DeleteUser`. -/
def UserUseCase.DeleteUser (r : UserStore) (id : String) :
    Except String Unit × UserStore :=
  if id = "" then (.error userIDRequiredMsg, r)
  else InMemoryUserRepository.Delete r id


/-- The keys of a store, in binding order. -/
def mapKeys {α : Type} (s : List (String × α)) : List String :=
  s.map Prod.fst

/-- Every binding's key equals the identifier of the book it stores. -/
def BookStoreWF (s : BookStore) : Prop :=
  ∀ p ∈ s, p.1 = p.2.ID

/-- Run `InMemoryBookRepository.Create` once per book, threading the store:
one sequential linearization of a batch of `Create` calls (the store's
write lock makes every concurrent execution equivalent to some such
order, which the theorems quantify over). Returns each call's result and
the final store. -/
def createAll (s : BookStore) (es : List Book) :
    List (Except String Book) × BookStore :=
  match es with
  | [] => ([], s)
  | e :: rest =>
    let p := InMemoryBookRepository.Create s e
    let q := createAll p.2 rest
    (p.1 :: q.1, q.2)

/-- One repository call, as an event in a history of calls on the store. -/
inductive BookOp where
  | create (b : Book)
  | update (b : Book)
  | delete (id : String)
  | getByID (id : String)
  | getAll
deriving Repr

/-- The store after one repository call (reads leave it unchanged). -/
def applyBookOp (s : BookStore) (op : BookOp) : BookStore :=
  match op with
  | .create b => (InMemoryBookRepository.Create s b).2
  | .update b => (InMemoryBookRepository.Update s b).2
  | .delete id => (InMemoryBookRepository.Delete s id).2
  | .getByID _ => s
  | .getAll => s

/-- The store reached from `NewInMemoryBookRepository`'s empty map by a
sequence of repository calls. -/
def runBookOps (ops : List BookOp) : BookStore :=
  ops.foldl applyBookOp []

/-- Sample book (the spec's walkthrough entity). -/
def bkA : Book :=
  { ID := "b1", Title := "Clean Architecture", Author := "Robert C. Martin" }

/-- A second sample book with a distinct identifier. -/
def bkB : Book :=
  { ID := "b2", Title := "Refactoring", Author := "Martin Fowler" }

/-- Sample user. -/
def usrA : User :=
  { ID := "u1", Name := "Ada", Email := "ada@example.com" }

theorem mapLookup_eq_none_iff {α : Type} (s : List (String × α)) (id : String) :
    mapLookup s id = none ↔ id ∉ mapKeys s := by
  induction s with
  | nil => simp [mapLookup, mapKeys]
  | cons p rest ih =>
    obtain ⟨k, v⟩ := p
    by_cases hk : k = id
    · subst hk
      simp [mapLookup, mapKeys]
    · simp [mapLookup, mapKeys, hk, ih, Ne.symm hk]

theorem mapLookup_mem {α : Type} {s : List (String × α)} {id : String} {v : α}
    (h : mapLookup s id = some v) : (id, v) ∈ s := by
  induction s with
  | nil => simp [mapLookup] at h
  | cons p rest ih =>
    obtain ⟨k, w⟩ := p
    by_cases hk : k = id
    · subst hk
      simp [mapLookup] at h
      simp [h]
    · simp [mapLookup, hk] at h
      exact List.mem_cons_of_mem _ (ih h)

theorem mapLookup_mapInsert_self {α : Type} (s : List (String × α))
    (id : String) (v : α) : mapLookup (mapInsert s id v) id = some v := by
  induction s with
  | nil => simp [mapInsert, mapLookup]
  | cons p rest ih =>
    obtain ⟨k, w⟩ := p
    by_cases hk : k = id <;> simp [mapInsert, mapLookup, hk, ih]

theorem mapLookup_mapInsert_ne {α : Type} (s : List (String × α))
    (id j : String) (v : α) (hj : j ≠ id) :
    mapLookup (mapInsert s id v) j = mapLookup s j := by
  induction s with
  | nil => simp [mapInsert, mapLookup, Ne.symm hj]
  | cons p rest ih =>
    obtain ⟨k, w⟩ := p
    by_cases hk : k = id
    · subst hk
      simp [mapInsert, mapLookup, Ne.symm hj]
    · simp [mapInsert, mapLookup, hk, ih]

theorem mapLookup_mapErase_ne {α : Type} (s : List (String × α))
    (id j : String) (hj : j ≠ id) :
    mapLookup (mapErase s id) j = mapLookup s j := by
  induction s with
  | nil => simp [mapErase]
  | cons p rest ih =>
    obtain ⟨k, w⟩ := p
    by_cases hk : k = id
    · subst hk
      simp [mapErase, mapLookup, Ne.symm hj]
    · simp [mapErase, mapLookup, hk, ih]

theorem mapLookup_mapErase_self {α : Type} (s : List (String × α))
    (id : String) (hnd : (mapKeys s).Nodup) :
    mapLookup (mapErase s id) id = none := by
  induction s with
  | nil => simp [mapErase, mapLookup]
  | cons p rest ih =>
    obtain ⟨k, v⟩ := p
    simp only [mapKeys, List.map_cons, List.nodup_cons] at hnd
    by_cases hk : k = id
    · subst hk
      simp only [mapErase, if_pos rfl]
      rw [mapLookup_eq_none_iff]
      exact fun hmem => hnd.1 (by simpa [mapKeys] using hmem)
    · simp only [mapErase, if_neg hk, mapLookup, if_neg hk]
      exact ih (by simpa [mapKeys] using hnd.2)

theorem mapErase_sublist {α : Type} (s : List (String × α)) (id : String) :
    (mapErase s id).Sublist s := by
  induction s with
  | nil => simp [mapErase]
  | cons p rest ih =>
    obtain ⟨k, v⟩ := p
    by_cases hk : k = id
    · simp only [mapErase, if_pos hk]
      exact List.sublist_cons_self (k, v) rest
    · simp only [mapErase, if_neg hk]
      exact List.Sublist.cons₂ (k, v) ih

theorem mapKeys_mapErase_nodup {α : Type} (s : List (String × α))
    (id : String) (hnd : (mapKeys s).Nodup) :
    (mapKeys (mapErase s id)).Nodup :=
  List.Nodup.sublist (List.Sublist.map Prod.fst (mapErase_sublist s id)) hnd

theorem mapKeys_mapInsert {α : Type} (s : List (String × α))
    (id : String) (v : α) :
    mapKeys (mapInsert s id v) =
      if id ∈ mapKeys s then mapKeys s else mapKeys s ++ [id] := by
  induction s with
  | nil => simp [mapInsert, mapKeys]
  | cons p rest ih =>
    obtain ⟨k, w⟩ := p
    by_cases hk : k = id
    · subst hk
      simp [mapInsert, mapKeys]
    · simp only [mapKeys, List.map_cons] at ih ⊢
      simp only [mapInsert, if_neg hk, List.map_cons]
      rw [ih]
      by_cases hm : id ∈ List.map Prod.fst rest
      · simp [hm, Ne.symm hk]
      · simp [hm, Ne.symm hk]

theorem mapKeys_mapInsert_nodup {α : Type} (s : List (String × α))
    (id : String) (v : α) (hnd : (mapKeys s).Nodup) :
    (mapKeys (mapInsert s id v)).Nodup := by
  rw [mapKeys_mapInsert]
  by_cases hm : id ∈ mapKeys s
  · simpa [hm]
  · simpa [hm, List.nodup_append] using hnd

/-- C1: for every store state and every entity, `Create` fails with the
already-exists error iff the entity's identifier is already bound; on
success it adds the entity under its identifier and returns it unchanged;
on failure the whole store — in particular the entity already stored under
that identifier — is unaltered.  Both the book and the user repository
are covered. -/
theorem repo_create_duplicate_spec :
    (∀ (s : BookStore) (b : Book),
      ((InMemoryBookRepository.Create s b).1 = .error bookAlreadyExistsMsg ↔
        mapLookup s b.ID ≠ none) ∧
      (mapLookup s b.ID = none →
        InMemoryBookRepository.Create s b = (.ok b, mapInsert s b.ID b) ∧
        mapLookup (InMemoryBookRepository.Create s b).2 b.ID = some b) ∧
      (∀ w, mapLookup s b.ID = some w →
        InMemoryBookRepository.Create s b = (.error bookAlreadyExistsMsg, s) ∧
        mapLookup (InMemoryBookRepository.Create s b).2 b.ID = some w)) ∧
    (∀ (s : UserStore) (u : User),
      ((InMemoryUserRepository.Create s u).1 = .error userAlreadyExistsMsg ↔
        mapLookup s u.ID ≠ none) ∧
      (mapLookup s u.ID = none →
        InMemoryUserRepository.Create s u = (.ok u, mapInsert s u.ID u) ∧
        mapLookup (InMemoryUserRepository.Create s u).2 u.ID = some u) ∧
      (∀ w, mapLookup s u.ID = some w →
        InMemoryUserRepository.Create s u = (.error userAlreadyExistsMsg, s) ∧
        mapLookup (InMemoryUserRepository.Create s u).2 u.ID = some w)) := by
  constructor
  · intro s b
    refine ⟨?_, ?_, ?_⟩
    · cases h : mapLookup s b.ID <;>
        simp [InMemoryBookRepository.Create, h, bookAlreadyExistsMsg]
    · intro h
      simp [InMemoryBookRepository.Create, h, mapLookup_mapInsert_self]
    · intro w h
      simp [InMemoryBookRepository.Create, h]
  · intro s u
    refine ⟨?_, ?_, ?_⟩
    · cases h : mapLookup s u.ID <;>
        simp [InMemoryUserRepository.Create, h, userAlreadyExistsMsg]
    · intro h
      simp [InMemoryUserRepository.Create, h, mapLookup_mapInsert_self]
    · intro w h
      simp [InMemoryUserRepository.Create, h]

/-- C1 witness: a create into the empty store succeeds and stores the
book; a duplicate user create fails and leaves the store unchanged. -/
theorem repo_create_duplicate_spec_witness :
    (InMemoryBookRepository.Create [] bkA = (.ok bkA, mapInsert [] bkA.ID bkA) ∧
      mapLookup (InMemoryBookRepository.Create [] bkA).2 bkA.ID = some bkA) ∧
    (InMemoryUserRepository.Create [("u1", usrA)] usrA =
        (.error userAlreadyExistsMsg, [("u1", usrA)]) ∧
      mapLookup (InMemoryUserRepository.Create [("u1", usrA)] usrA).2 usrA.ID =
        some usrA) :=
  ⟨(repo_create_duplicate_spec.1 [] bkA).2.1 rfl,
   (repo_create_duplicate_spec.2 [("u1", usrA)] usrA).2.2 usrA rfl⟩

/-- C3: on an identifier absent from the store, `GetByID`, `Update` (with
any book carrying that identifier) and `Delete` each fail with the
not-found error and leave the store unchanged. -/
theorem repo_missing_id_notFound (s : BookStore) (id : String)
    (h : mapLookup s id = none) :
    InMemoryBookRepository.GetByID s id = .error bookNotFoundMsg ∧
    (∀ b : Book, b.ID = id →
      InMemoryBookRepository.Update s b = (.error bookNotFoundMsg, s)) ∧
    InMemoryBookRepository.Delete s id = (.error bookNotFoundMsg, s) := by
  refine ⟨?_, ?_, ?_⟩
  · simp [InMemoryBookRepository.GetByID, h]
  · intro b hb
    simp [InMemoryBookRepository.Update, hb, h]
  · simp [InMemoryBookRepository.Delete, h]

/-- C3 witness at a concrete one-book store and the absent identifier
`"nonexistent"`. -/
theorem repo_missing_id_notFound_witness :
    InMemoryBookRepository.GetByID [("b1", bkA)] "nonexistent" =
      .error bookNotFoundMsg ∧
    InMemoryBookRepository.Update [("b1", bkA)]
        { ID := "nonexistent", Title := "T", Author := "A" } =
      (.error bookNotFoundMsg, [("b1", bkA)]) ∧
    InMemoryBookRepository.Delete [("b1", bkA)] "nonexistent" =
      (.error bookNotFoundMsg, [("b1", bkA)]) :=
  ⟨(repo_missing_id_notFound [("b1", bkA)] "nonexistent" rfl).1,
   (repo_missing_id_notFound [("b1", bkA)] "nonexistent" rfl).2.1
     { ID := "nonexistent", Title := "T", Author := "A" } rfl,
   (repo_missing_id_notFound [("b1", bkA)] "nonexistent" rfl).2.2⟩

/-- C4: when the identifier is bound, `Update` succeeds, rebinds the
identifier to the full replacement entity (same identifier, new
attributes), a subsequent `GetByID` returns the new entity, and no other
identifier's binding changes. -/
theorem repo_update_replaces (s : BookStore) (b w : Book)
    (h : mapLookup s b.ID = some w) :
    InMemoryBookRepository.Update s b = (.ok b, mapInsert s b.ID b) ∧
    InMemoryBookRepository.GetByID (InMemoryBookRepository.Update s b).2 b.ID =
      .ok b ∧
    ∀ j, j ≠ b.ID →
      mapLookup (InMemoryBookRepository.Update s b).2 j = mapLookup s j := by
  refine ⟨?_, ?_, ?_⟩
  · simp [InMemoryBookRepository.Update, h]
  · simp [InMemoryBookRepository.Update, h, InMemoryBookRepository.GetByID,
      mapLookup_mapInsert_self]
  · intro j hj
    simp [InMemoryBookRepository.Update, h, mapLookup_mapInsert_ne _ _ _ _ hj]

/-- C4 witness: updating `"b1"` in a two-book store replaces its
attributes, is visible to `GetByID`, and leaves `"b2"` untouched. -/
theorem repo_update_replaces_witness :
    InMemoryBookRepository.Update [("b1", bkA), ("b2", bkB)]
        { ID := "b1", Title := "T2", Author := "A2" } =
      (.ok { ID := "b1", Title := "T2", Author := "A2" },
        mapInsert [("b1", bkA), ("b2", bkB)] "b1"
          { ID := "b1", Title := "T2", Author := "A2" }) ∧
    InMemoryBookRepository.GetByID
        (InMemoryBookRepository.Update [("b1", bkA), ("b2", bkB)]
          { ID := "b1", Title := "T2", Author := "A2" }).2 "b1" =
      .ok { ID := "b1", Title := "T2", Author := "A2" } ∧
    mapLookup
        (InMemoryBookRepository.Update [("b1", bkA), ("b2", bkB)]
          { ID := "b1", Title := "T2", Author := "A2" }).2 "b2" =
      mapLookup [("b1", bkA), ("b2", bkB)] "b2" :=
  ⟨(repo_update_replaces [("b1", bkA), ("b2", bkB)]
      { ID := "b1", Title := "T2", Author := "A2" } bkA rfl).1,
   (repo_update_replaces [("b1", bkA), ("b2", bkB)]
      { ID := "b1", Title := "T2", Author := "A2" } bkA rfl).2.1,
   (repo_update_replaces [("b1", bkA), ("b2", bkB)]
      { ID := "b1", Title := "T2", Author := "A2" } bkA rfl).2.2 "b2"
     (by decide)⟩

/-- C5: when the identifier is bound (in a store with no duplicate keys,
as every store the repository builds), `Delete` succeeds, removes exactly
that binding — a subsequent `GetByID` on it fails with the not-found
error, every other binding is untouched — and an entity created then
deleted is no longer retrievable. -/
theorem repo_delete_removes (s : BookStore) (id : String) (w : Book)
    (hnd : (mapKeys s).Nodup) (h : mapLookup s id = some w) :
    InMemoryBookRepository.Delete s id = (.ok (), mapErase s id) ∧
    InMemoryBookRepository.GetByID (InMemoryBookRepository.Delete s id).2 id =
      .error bookNotFoundMsg ∧
    (∀ j, j ≠ id →
      mapLookup (InMemoryBookRepository.Delete s id).2 j = mapLookup s j) ∧
    (∀ b : Book, mapLookup s b.ID = none →
      InMemoryBookRepository.GetByID
        (InMemoryBookRepository.Delete
          (InMemoryBookRepository.Create s b).2 b.ID).2 b.ID =
        .error bookNotFoundMsg) := by
  refine ⟨?_, ?_, ?_, ?_⟩
  · simp [InMemoryBookRepository.Delete, h]
  · simp [InMemoryBookRepository.Delete, h, InMemoryBookRepository.GetByID,
      mapLookup_mapErase_self s id hnd]
  · intro j hj
    simp [InMemoryBookRepository.Delete, h, mapLookup_mapErase_ne _ _ _ hj]
  · intro b hb
    have h1 : InMemoryBookRepository.Create s b = (.ok b, mapInsert s b.ID b) := by
      simp [InMemoryBookRepository.Create, hb]
    have h2 : mapLookup (mapInsert s b.ID b) b.ID = some b :=
      mapLookup_mapInsert_self s b.ID b
    have hnd' : (mapKeys (mapInsert s b.ID b)).Nodup :=
      mapKeys_mapInsert_nodup s b.ID b hnd
    rw [h1]
    simp [InMemoryBookRepository.Delete, h2, InMemoryBookRepository.GetByID,
      mapLookup_mapErase_self _ _ hnd']

/-- C5 witness: deleting `"b1"` from a two-book store removes exactly it;
creating then deleting a fresh book makes it unretrievable. -/
theorem repo_delete_removes_witness :
    InMemoryBookRepository.Delete [("b1", bkA), ("b2", bkB)] "b1" =
      (.ok (), mapErase [("b1", bkA), ("b2", bkB)] "b1") ∧
    InMemoryBookRepository.GetByID
        (InMemoryBookRepository.Delete [("b1", bkA), ("b2", bkB)] "b1").2 "b1" =
      .error bookNotFoundMsg ∧
    mapLookup (InMemoryBookRepository.Delete [("b1", bkA), ("b2", bkB)] "b1").2
        "b2" =
      mapLookup [("b1", bkA), ("b2", bkB)] "b2" ∧
    InMemoryBookRepository.GetByID
        (InMemoryBookRepository.Delete
          (InMemoryBookRepository.Create [("b1", bkA), ("b2", bkB)]
            { ID := "b3", Title := "T3", Author := "A3" }).2 "b3").2 "b3" =
      .error bookNotFoundMsg :=
  ⟨(repo_delete_removes [("b1", bkA), ("b2", bkB)] "b1" bkA (by decide) rfl).1,
   (repo_delete_removes [("b1", bkA), ("b2", bkB)] "b1" bkA (by decide) rfl).2.1,
   (repo_delete_removes [("b1", bkA), ("b2", bkB)] "b1" bkA (by decide) rfl).2.2.1
     "b2" (by decide),
   (repo_delete_removes [("b1", bkA), ("b2", bkB)] "b1" bkA (by decide) rfl).2.2.2
     { ID := "b3", Title := "T3", Author := "A3" } rfl⟩

/-- C2: with non-empty title and author and a fresh, non-empty generated
identifier (both properties of `uuid.New().String()`, modelled by the
`genID` argument), `CreateBook` succeeds and returns exactly the entity
built from the inputs, and a subsequent `GetByID` — at the repository as
well as through the use case — on the returned identifier yields that
same entity. -/
theorem usecase_create_then_get (s : BookStore) (genID title author : String)
    (ht : title ≠ "") (ha : author ≠ "") (hg : genID ≠ "")
    (hfresh : mapLookup s genID = none) :
    BookUseCase.CreateBook s genID title author =
      (.ok { ID := genID, Title := title, Author := author },
        mapInsert s genID { ID := genID, Title := title, Author := author }) ∧
    InMemoryBookRepository.GetByID
        (BookUseCase.CreateBook s genID title author).2 genID =
      .ok { ID := genID, Title := title, Author := author } ∧
    BookUseCase.GetBookByID (BookUseCase.CreateBook s genID title author).2
        genID =
      .ok { ID := genID, Title := title, Author := author } := by
  have h1 : BookUseCase.CreateBook s genID title author =
      (.ok { ID := genID, Title := title, Author := author },
        mapInsert s genID { ID := genID, Title := title, Author := author }) := by
    simp [BookUseCase.CreateBook, ht, ha, InMemoryBookRepository.Create, hfresh]
  refine ⟨h1, ?_, ?_⟩
  · simp [h1, InMemoryBookRepository.GetByID, mapLookup_mapInsert_self]
  · simp [h1, BookUseCase.GetBookByID, hg, InMemoryBookRepository.GetByID,
      mapLookup_mapInsert_self]

/-- C2 witness: creating the spec's walkthrough book in the empty store
and reading it back. -/
theorem usecase_create_then_get_witness :
    BookUseCase.CreateBook [] "b1" "Clean Architecture" "Robert C. Martin" =
      (.ok { ID := "b1", Title := "Clean Architecture",
              Author := "Robert C. Martin" },
        mapInsert [] "b1"
          { ID := "b1", Title := "Clean Architecture",
            Author := "Robert C. Martin" }) ∧
    InMemoryBookRepository.GetByID
        (BookUseCase.CreateBook [] "b1" "Clean Architecture"
          "Robert C. Martin").2 "b1" =
      .ok { ID := "b1", Title := "Clean Architecture",
            Author := "Robert C. Martin" } ∧
    BookUseCase.GetBookByID
        (BookUseCase.CreateBook [] "b1" "Clean Architecture"
          "Robert C. Martin").2 "b1" =
      .ok { ID := "b1", Title := "Clean Architecture",
            Author := "Robert C. Martin" } :=
  usecase_create_then_get [] "b1" "Clean Architecture" "Robert C. Martin"
    (by decide) (by decide) (by decide) rfl

/-- C7: use-case create validates each required attribute independently,
first-empty-wins: an empty title (resp. user name) fails with the title
(resp. name) validation error whatever the other attribute; a non-empty
title (resp. name) with an empty author (resp. email) fails with the
author (resp. email) validation error.  The store is returned unchanged,
whatever its state — the repository is never consulted. -/
theorem usecase_create_validation :
    (∀ (s : BookStore) (genID author : String),
      BookUseCase.CreateBook s genID "" author = (.error titleRequiredMsg, s)) ∧
    (∀ (s : BookStore) (genID title author : String), title ≠ "" → author = "" →
      BookUseCase.CreateBook s genID title author =
        (.error authorRequiredMsg, s)) ∧
    (∀ (s : UserStore) (genID email : String),
      UserUseCase.CreateUser s genID "" email = (.error nameRequiredMsg, s)) ∧
    (∀ (s : UserStore) (genID name email : String), name ≠ "" → email = "" →
      UserUseCase.CreateUser s genID name email =
        (.error emailRequiredMsg, s)) := by
  refine ⟨?_, ?_, ?_, ?_⟩
  · intro s genID author
    simp [BookUseCase.CreateBook]
  · intro s genID title author ht ha
    simp [BookUseCase.CreateBook, ht, ha]
  · intro s genID email
    simp [UserUseCase.CreateUser]
  · intro s genID name email hn he
    simp [UserUseCase.CreateUser, hn, he]

/-- C7 witness: the spec scenario `Create("", "X")` fails with the title
validation error; a user with a name but empty email fails with the email
validation error. -/
theorem usecase_create_validation_witness :
    BookUseCase.CreateBook [] "g1" "" "X" = (.error titleRequiredMsg, []) ∧
    UserUseCase.CreateUser [] "g1" "Ada" "" = (.error emailRequiredMsg, []) :=
  ⟨usecase_create_validation.1 [] "g1" "X",
   usecase_create_validation.2.2.2 [] "g1" "Ada" "" (by decide) rfl⟩

/-- C8: `GetBookByID`, `UpdateBook` and `DeleteBook` fail with the ID
validation error on an empty identifier — and `UpdateBook` with the
title / author validation error when those are empty — leaving the store
unchanged whatever its state; with all inputs non-empty each equals the
corresponding repository operation (so a repository not-found error is
propagated unchanged). -/
theorem usecase_validate_then_delegate :
    (∀ s : BookStore, BookUseCase.GetBookByID s "" = .error bookIDRequiredMsg) ∧
    (∀ (s : BookStore) (t a : String),
      BookUseCase.UpdateBook s "" t a = (.error bookIDRequiredMsg, s)) ∧
    (∀ s : BookStore, BookUseCase.DeleteBook s "" = (.error bookIDRequiredMsg, s)) ∧
    (∀ (s : BookStore) (id a : String), id ≠ "" →
      BookUseCase.UpdateBook s id "" a = (.error titleRequiredMsg, s)) ∧
    (∀ (s : BookStore) (id t : String), id ≠ "" → t ≠ "" →
      BookUseCase.UpdateBook s id t "" = (.error authorRequiredMsg, s)) ∧
    (∀ (s : BookStore) (id : String), id ≠ "" →
      BookUseCase.GetBookByID s id = InMemoryBookRepository.GetByID s id) ∧
    (∀ (s : BookStore) (id t a : String), id ≠ "" → t ≠ "" → a ≠ "" →
      BookUseCase.UpdateBook s id t a =
        InMemoryBookRepository.Update s { ID := id, Title := t, Author := a }) ∧
    (∀ (s : BookStore) (id : String), id ≠ "" →
      BookUseCase.DeleteBook s id = InMemoryBookRepository.Delete s id) ∧
    (∀ (s : BookStore) (id : String), id ≠ "" → mapLookup s id = none →
      BookUseCase.GetBookByID s id = .error bookNotFoundMsg ∧
      BookUseCase.DeleteBook s id = (.error bookNotFoundMsg, s)) ∧
    (∀ (s : BookStore) (id t a : String),
      id ≠ "" → t ≠ "" → a ≠ "" → mapLookup s id = none →
      BookUseCase.UpdateBook s id t a = (.error bookNotFoundMsg, s)) := by
  refine ⟨?_, ?_, ?_, ?_, ?_, ?_, ?_, ?_, ?_, ?_⟩
  · intro s
    simp [BookUseCase.GetBookByID]
  · intro s t a
    simp [BookUseCase.UpdateBook]
  · intro s
    simp [BookUseCase.DeleteBook]
  · intro s id a hid
    simp [BookUseCase.UpdateBook, hid]
  · intro s id t hid ht
    simp [BookUseCase.UpdateBook, hid, ht]
  · intro s id hid
    simp [BookUseCase.GetBookByID, hid]
  · intro s id t a hid ht ha
    simp [BookUseCase.UpdateBook, hid, ht, ha]
  · intro s id hid
    simp [BookUseCase.DeleteBook, hid]
  · intro s id hid hmiss
    constructor
    · simp [BookUseCase.GetBookByID, hid, InMemoryBookRepository.GetByID, hmiss]
    · simp [BookUseCase.DeleteBook, hid, InMemoryBookRepository.Delete, hmiss]
  · intro s id t a hid ht ha hmiss
    simp [BookUseCase.UpdateBook, hid, ht, ha, InMemoryBookRepository.Update,
      hmiss]

/-- C8 witness: empty-ID validation on a one-book store, delegation on a
non-empty ID, and not-found propagation for an absent identifier. -/
theorem usecase_validate_then_delegate_witness :
    BookUseCase.GetBookByID [("b1", bkA)] "" = .error bookIDRequiredMsg ∧
    BookUseCase.UpdateBook [("b1", bkA)] "" "T" "A" =
      (.error bookIDRequiredMsg, [("b1", bkA)]) ∧
    BookUseCase.GetBookByID [("b1", bkA)] "b1" =
      InMemoryBookRepository.GetByID [("b1", bkA)] "b1" ∧
    BookUseCase.DeleteBook [("b1", bkA)] "zz" =
      (.error bookNotFoundMsg, [("b1", bkA)]) ∧
    BookUseCase.UpdateBook [("b1", bkA)] "zz" "T" "A" =
      (.error bookNotFoundMsg, [("b1", bkA)]) :=
  ⟨usecase_validate_then_delegate.1 [("b1", bkA)],
   usecase_validate_then_delegate.2.1 [("b1", bkA)] "T" "A",
   usecase_validate_then_delegate.2.2.2.2.2.1 [("b1", bkA)] "b1" (by decide),
   (usecase_validate_then_delegate.2.2.2.2.2.2.2.2.1 [("b1", bkA)] "zz"
     (by decide) rfl).2,
   usecase_validate_then_delegate.2.2.2.2.2.2.2.2.2 [("b1", bkA)] "zz" "T" "A"
     (by decide) (by decide) (by decide) rfl⟩

theorem values_nodup_of_keys_nodup (s : BookStore) (hnd : (mapKeys s).Nodup)
    (hwf : BookStoreWF s) : (s.map (fun p => p.2)).Nodup := by
  induction s with
  | nil => simp
  | cons p rest ih =>
    obtain ⟨k, b⟩ := p
    simp only [mapKeys, List.map_cons, List.nodup_cons] at hnd
    have hwfk : k = b.ID := hwf (k, b) (List.mem_cons_self _ _)
    have hwfr : BookStoreWF rest := fun q hq => hwf q (List.mem_cons_of_mem _ hq)
    simp only [List.map_cons, List.nodup_cons]
    refine ⟨?_, ih (by simpa [mapKeys] using hnd.2) hwfr⟩
    intro hmem
    obtain ⟨a, ha, hab⟩ := List.mem_map.mp hmem
    have hk' : a.1 = b.ID := by
      rw [hwfr a ha, hab]
    exact hnd.1 (by
      have : a.1 ∈ List.map Prod.fst rest := List.mem_map_of_mem Prod.fst ha
      rwa [hk', ← hwfk] at this)

theorem values_mem_iff_of_wf (s : BookStore) (hwf : BookStoreWF s) (b : Book) :
    b ∈ s.map (fun p => p.2) ↔ (b.ID, b) ∈ s := by
  constructor
  · intro hmem
    obtain ⟨a, ha, hab⟩ := List.mem_map.mp hmem
    have : a = (b.ID, b) := by
      have h1 := hwf a ha
      obtain ⟨k, v⟩ := a
      simp_all
    rwa [this] at ha
  · intro hmem
    exact List.mem_map.mpr ⟨(b.ID, b), hmem, rfl⟩

/-- C6: `GetAll` never returns an error: on the empty store it returns the
empty sequence, and on any store it returns a freshly built list of the
stored entities (for both the book and the user repository); on a store
with no duplicate keys each of which binds an entity under its own
identifier — as every store the repository builds — that list has exactly
one element per binding (no duplicates, length equal to the store's
size), and contains precisely the stored entities. -/
theorem repo_getAll_spec :
    (InMemoryBookRepository.GetAll [] = .ok [] ∧
      InMemoryUserRepository.GetAll [] = .ok []) ∧
    (∀ s : BookStore,
      InMemoryBookRepository.GetAll s = .ok (s.map (fun p => p.2))) ∧
    (∀ u : UserStore,
      InMemoryUserRepository.GetAll u = .ok (u.map (fun p => p.2))) ∧
    (∀ s : BookStore, (mapKeys s).Nodup → BookStoreWF s →
      (s.map (fun p => p.2)).Nodup ∧
      (s.map (fun p => p.2)).length = s.length ∧
      ∀ b : Book, b ∈ s.map (fun p => p.2) ↔ (b.ID, b) ∈ s) := by
  refine ⟨⟨rfl, rfl⟩, fun s => rfl, fun u => rfl, ?_⟩
  intro s hnd hwf
  exact ⟨values_nodup_of_keys_nodup s hnd hwf, List.length_map s _,
    fun b => values_mem_iff_of_wf s hwf b⟩

/-- C6 witness: a concrete two-book store. -/
theorem repo_getAll_spec_witness :
    InMemoryBookRepository.GetAll [("b1", bkA), ("b2", bkB)] =
      .ok ([("b1", bkA), ("b2", bkB)].map (fun p => p.2)) ∧
    ([("b1", bkA), ("b2", bkB)].map (fun p => p.2)).Nodup ∧
    ([("b1", bkA), ("b2", bkB)].map (fun p => p.2)).length =
      ([("b1", bkA), ("b2", bkB)] : BookStore).length ∧
    (bkA ∈ [("b1", bkA), ("b2", bkB)].map (fun p => p.2) ↔
      (bkA.ID, bkA) ∈ ([("b1", bkA), ("b2", bkB)] : BookStore)) :=
  ⟨repo_getAll_spec.2.1 [("b1", bkA), ("b2", bkB)],
   (repo_getAll_spec.2.2.2 [("b1", bkA), ("b2", bkB)] (by decide)
     (by simp [BookStoreWF, bkA, bkB])).1,
   (repo_getAll_spec.2.2.2 [("b1", bkA), ("b2", bkB)] (by decide)
     (by simp [BookStoreWF, bkA, bkB])).2.1,
   (repo_getAll_spec.2.2.2 [("b1", bkA), ("b2", bkB)] (by decide)
     (by simp [BookStoreWF, bkA, bkB])).2.2 bkA⟩

theorem mapInsert_length_fresh {α : Type} (s : List (String × α)) (id : String)
    (v : α) (h : mapLookup s id = none) :
    (mapInsert s id v).length = s.length + 1 := by
  induction s with
  | nil => simp [mapInsert]
  | cons p rest ih =>
    obtain ⟨k, w⟩ := p
    by_cases hk : k = id
    · simp [mapLookup, hk] at h
    · simp only [mapLookup, if_neg hk] at h
      simp [mapInsert, hk, ih h]

theorem createAll_fresh_nodup (es : List Book) (s : BookStore)
    (hfresh : ∀ e ∈ es, mapLookup s e.ID = none)
    (hnd : (es.map Book.ID).Nodup) :
    (createAll s es).1 = es.map Except.ok ∧
    (∀ e ∈ es, mapLookup (createAll s es).2 e.ID = some e) ∧
    (∀ j, j ∉ es.map Book.ID →
      mapLookup (createAll s es).2 j = mapLookup s j) ∧
    (createAll s es).2.length = s.length + es.length := by
  induction es generalizing s with
  | nil => simp [createAll]
  | cons e rest ih =>
    have he : mapLookup s e.ID = none := hfresh e (List.mem_cons_self _ _)
    simp only [List.map_cons, List.nodup_cons] at hnd
    have hstep : InMemoryBookRepository.Create s e =
        (.ok e, mapInsert s e.ID e) := by
      simp [InMemoryBookRepository.Create, he]
    have hfresh' : ∀ e' ∈ rest, mapLookup (mapInsert s e.ID e) e'.ID = none := by
      intro e' he'
      have hne : e'.ID ≠ e.ID := by
        intro hcontra
        exact hnd.1 (hcontra ▸ List.mem_map_of_mem Book.ID he')
      rw [mapLookup_mapInsert_ne _ _ _ _ hne]
      exact hfresh e' (List.mem_cons_of_mem _ he')
    obtain ⟨ih1, ih2, ih3, ih4⟩ := ih (mapInsert s e.ID e) hfresh' hnd.2
    have hsnd : (createAll s (e :: rest)).2 =
        (createAll (mapInsert s e.ID e) rest).2 := by
      simp [createAll, hstep]
    refine ⟨?_, ?_, ?_, ?_⟩
    · simp [createAll, hstep, ih1]
    · intro e' he'
      rcases List.mem_cons.mp he' with hcase | hcase
      · subst hcase
        rw [hsnd, ih3 e'.ID hnd.1, mapLookup_mapInsert_self]
      · rw [hsnd]
        exact ih2 e' hcase
    · intro j hj
      simp only [List.map_cons, List.mem_cons] at hj
      push_neg at hj
      rw [hsnd, ih3 j hj.2, mapLookup_mapInsert_ne _ _ _ _ hj.1]
    · rw [hsnd, ih4, mapInsert_length_fresh s e.ID e he]
      simp [Nat.add_assoc, Nat.add_comm 1 rest.length]

theorem createAll_dup (es : List Book) (s : BookStore) (i : String)
    (hall : ∀ e ∈ es, e.ID = i) (hsome : mapLookup s i ≠ none) :
    createAll s es = (es.map (fun _ => Except.error bookAlreadyExistsMsg), s) := by
  induction es with
  | nil => simp [createAll]
  | cons e rest ih =>
    have he : e.ID = i := hall e (List.mem_cons_self _ _)
    obtain ⟨w, hw⟩ := Option.ne_none_iff_exists'.mp hsome
    have hstep : InMemoryBookRepository.Create s e =
        (.error bookAlreadyExistsMsg, s) := by
      simp [InMemoryBookRepository.Create, he, hw]
    simp [createAll, hstep, ih (fun e' h' => hall e' (List.mem_cons_of_mem _ h'))]

/-- C9: linearized batches of `Create` calls (the write lock makes any
concurrent execution equivalent to running `createAll` in some order, and
the statements quantify over every order): when the books have pairwise
distinct identifiers, all fresh for the store, every call succeeds and
every book is independently retrievable from the final store; when all
calls share one fresh identifier, exactly the first call of the
linearization succeeds and every other call fails with the already-exists
error, whichever book went first. -/
theorem repo_concurrent_create_linearized :
    (∀ (s : BookStore) (es : List Book),
      (∀ e ∈ es, mapLookup s e.ID = none) → (es.map Book.ID).Nodup →
      (createAll s es).1 = es.map Except.ok ∧
      ∀ e ∈ es,
        InMemoryBookRepository.GetByID (createAll s es).2 e.ID = .ok e) ∧
    (∀ (s : BookStore) (e : Book) (rest : List Book),
      mapLookup s e.ID = none → (∀ e' ∈ rest, e'.ID = e.ID) →
      (createAll s (e :: rest)).1 =
        .ok e :: rest.map (fun _ => Except.error bookAlreadyExistsMsg)) := by
  constructor
  · intro s es hfresh hnd
    obtain ⟨h1, h2, _, _⟩ := createAll_fresh_nodup es s hfresh hnd
    refine ⟨h1, fun e he => ?_⟩
    simp [InMemoryBookRepository.GetByID, h2 e he]
  · intro s e rest hfreshe hall
    have hstep : InMemoryBookRepository.Create s e =
        (.ok e, mapInsert s e.ID e) := by
      simp [InMemoryBookRepository.Create, hfreshe]
    have hdup := createAll_dup rest (mapInsert s e.ID e) e.ID hall
      (by simp [mapLookup_mapInsert_self])
    simp [createAll, hstep, hdup]

/-- C9 witness: two distinct-ID creates from the empty store both succeed
and are retrievable; two same-ID creates leave exactly the first one
succeeding. -/
theorem repo_concurrent_create_linearized_witness :
    (createAll [] [bkA, bkB]).1 = [bkA, bkB].map Except.ok ∧
    InMemoryBookRepository.GetByID (createAll [] [bkA, bkB]).2 bkA.ID =
      .ok bkA ∧
    InMemoryBookRepository.GetByID (createAll [] [bkA, bkB]).2 bkB.ID =
      .ok bkB ∧
    (createAll [] [bkA, { ID := "b1", Title := "X", Author := "Y" }]).1 =
      .ok bkA ::
        [({ ID := "b1", Title := "X", Author := "Y" } : Book)].map
          (fun _ => Except.error bookAlreadyExistsMsg) :=
  ⟨(repo_concurrent_create_linearized.1 [] [bkA, bkB]
      (fun e _ => rfl) (by decide)).1,
   (repo_concurrent_create_linearized.1 [] [bkA, bkB]
      (fun e _ => rfl) (by decide)).2 bkA (by simp),
   (repo_concurrent_create_linearized.1 [] [bkA, bkB]
      (fun e _ => rfl) (by decide)).2 bkB (by simp),
   repo_concurrent_create_linearized.2 [] bkA
     [{ ID := "b1", Title := "X", Author := "Y" }] rfl
     (by intro e' h'; simp at h'; simp [h', bkA])⟩

theorem BookStoreWF_mapInsert (s : BookStore) (b : Book)
    (hwf : BookStoreWF s) : BookStoreWF (mapInsert s b.ID b) := by
  induction s with
  | nil =>
    intro p hp
    simp [mapInsert] at hp
    simp [hp]
  | cons q rest ih =>
    obtain ⟨k, v⟩ := q
    have hwfk : k = v.ID := hwf (k, v) (List.mem_cons_self _ _)
    have hwfr : BookStoreWF rest := fun p hp => hwf p (List.mem_cons_of_mem _ hp)
    intro p hp
    by_cases hk : k = b.ID
    · simp only [mapInsert, if_pos hk, List.mem_cons] at hp
      rcases hp with hp | hp
      · simp [hp]
      · exact hwfr p hp
    · simp only [mapInsert, if_neg hk, List.mem_cons] at hp
      rcases hp with hp | hp
      · simp [hp, hwfk]
      · exact ih hwfr p hp

theorem BookStoreWF_mapErase (s : BookStore) (id : String)
    (hwf : BookStoreWF s) : BookStoreWF (mapErase s id) :=
  fun p hp => hwf p ((mapErase_sublist s id).subset hp)

theorem BookStoreWF_applyBookOp (s : BookStore) (op : BookOp)
    (hwf : BookStoreWF s) : BookStoreWF (applyBookOp s op) := by
  cases op with
  | create b =>
    cases h : mapLookup s b.ID <;>
      simp only [applyBookOp, InMemoryBookRepository.Create, h]
    · exact BookStoreWF_mapInsert s b hwf
    · exact hwf
  | update b =>
    cases h : mapLookup s b.ID <;>
      simp only [applyBookOp, InMemoryBookRepository.Update, h]
    · exact hwf
    · exact BookStoreWF_mapInsert s b hwf
  | delete id =>
    cases h : mapLookup s id <;>
      simp only [applyBookOp, InMemoryBookRepository.Delete, h]
    · exact hwf
    · exact BookStoreWF_mapErase s id hwf
  | getByID id => exact hwf
  | getAll => exact hwf

theorem BookStoreWF_runBookOps (ops : List BookOp) :
    BookStoreWF (runBookOps ops) := by
  suffices h : ∀ s, BookStoreWF s → BookStoreWF (List.foldl applyBookOp s ops) by
    exact h [] (fun p hp => absurd hp (List.not_mem_nil p))
  induction ops with
  | nil => intro s h; exact h
  | cons op rest ih =>
    intro s h
    exact ih _ (BookStoreWF_applyBookOp s op h)

/-- C10 (implicit invariant): every store reachable from the empty map by
a sequence of repository operations binds each stored book under that
book's own identifier, and consequently a successful `GetByID id` on a
reachable store returns a book whose identifier is `id`. -/
theorem repo_reachable_store_keyed_by_id (ops : List BookOp) :
    BookStoreWF (runBookOps ops) ∧
    ∀ (id : String) (b : Book),
      InMemoryBookRepository.GetByID (runBookOps ops) id = .ok b →
      b.ID = id := by
  refine ⟨BookStoreWF_runBookOps ops, ?_⟩
  intro id b hget
  have hsome : mapLookup (runBookOps ops) id = some b := by
    unfold InMemoryBookRepository.GetByID at hget
    cases h : mapLookup (runBookOps ops) id <;> rw [h] at hget
    · exact absurd hget (by simp)
    · simp only [Except.ok.injEq] at hget
      rw [hget]
  exact (BookStoreWF_runBookOps ops (id, b) (mapLookup_mem hsome)).symm

/-- C10 witness: after creating `bkA`, a successful `GetByID "b1"`
returns a book whose identifier is `"b1"`. -/
theorem repo_reachable_store_keyed_by_id_witness : bkA.ID = "b1" :=
  (repo_reachable_store_keyed_by_id [BookOp.create bkA]).2 "b1" bkA rfl
